import Mathlib

/-!
Verification development for the review-collection subsystem of the
YBIGTA newbie team project (site crawlers, CSV persistence, MongoDB seeding).

Shallow embedding notes:
* Each crawler's pure collection logic is translated from the Python source
  into executable Lean definitions.  DOM interaction is modelled at its
  boundary: a "card" / "item" / "group" carries the values the extraction
  helpers would read from the page, and a collection run is driven by a
  finite trace of observed batches together with the success of each
  advance action.
* Cryptographic digests (hashlib.md5 / hashlib.sha256) are external library
  functions; they are modelled as an explicit function parameter
  (a String-to-String map) so every theorem quantifies over them, and the
  fixed output sizes of the two algorithms are recorded as constants.
* Python sets are modelled as lists used only through membership; Python
  exceptions in the per-item extraction helpers are modelled by marking a
  candidate as failing (it is skipped, as in the source).
-/

/-- Reasons a collection loop can stop, following the spec vocabulary
(TargetReached / SourceExhausted / Stagnation / Error); ranOut is the
model artifact for a finite observation trace ending while the real loop
would have kept polling. -/
inductive StopReason where
  | targetReached
  | sourceExhausted
  | stagnated
  | loadError
  | ranOut
deriving DecidableEq

/-- Output size in bits of hashlib.md5 digests (fixed by the MD5 algorithm). -/
def md5DigestBits : Nat := 128

/-- Output size in bits of hashlib.sha256 digests (fixed by the SHA-256 algorithm). -/
def sha256DigestBits : Nat := 256

namespace Pystr

/-- Python str.strip() on a character list: drop whitespace from both ends. -/
def stripChars (l : List Char) : List Char :=
  ((l.dropWhile Char.isWhitespace).reverse.dropWhile Char.isWhitespace).reverse

/-- Python str.strip() at the string level. -/
def strip (s : String) : String := String.mk (stripChars s.data)

/-- Python str.replace(old, new) for a single-character pattern and
replacement, as used for the non-breaking-space normalization. -/
def replaceChar (pat rep : Char) (s : String) : String :=
  String.mk (s.data.map (fun c => if c = pat then rep else c))

/-- Containment test for a character. -/
def containsChar (s : String) (p : Char → Bool) : Bool := s.data.any p

/-- Join strings with a comma separator. -/
def joinComma : List String → String
  | [] => ""
  | [s] => s
  | s :: rest => s ++ "," ++ joinComma rest

/-- Double every double-quote character, the CSV escaping step. -/
def doubleQuotes (s : String) : String :=
  String.mk (s.data.foldr (fun c acc => if c = '"' then '"' :: '"' :: acc else c :: acc) [])

end Pystr

namespace AladinCrawler

/-- One review record, from the dataclass ReviewRow in aladin_crawler.py
(fields rating, date, content, all strings). -/
structure ReviewRow where
  rating : String
  date : String
  content : String
deriving DecidableEq

/-- One visible review card, at the DOM boundary: the values the field
extractors of aladin_crawler.py (extract_paper_id, extract_rating,
extract_date, extract_content, and the textContent attribute used by
visible_card_signatures) would return for this card.  paperId is the empty
string when the card has no natural page-assigned id. -/
structure Card where
  paperId : String
  rating : String
  date : String
  content : String
  textContent : String
deriving DecidableEq

/-- Crawler state: rows (each admitted ReviewRow paired with the identity
string under which it was admitted) and seen_ids, plus the stagnation
counter and last_count of the collect loop. -/
structure AladinState where
  rows : List (ReviewRow × String)
  seen : List String
  stagnation : Nat
  lastCount : Nat
deriving DecidableEq

/-- Initial state of a crawler instance (rows = [], seen_ids = set()). -/
def initState : AladinState := ⟨[], [], 0, 0⟩

/-- TARGET_COUNT constant of AladinCrawler. -/
def TARGET_COUNT : Nat := 550

/-- STAGNATION_LIMIT constant of AladinCrawler. -/
def STAGNATION_LIMIT : Nat := 10

/-- MORE_MAX_ATTEMPTS constant of AladinCrawler. -/
def MORE_MAX_ATTEMPTS : Nat := 8

/-- Normalization applied to date and content in parse_one_card:
replace non-breaking spaces by spaces, then strip. -/
def normField (s : String) : String := Pystr.strip (Pystr.replaceChar '\u00A0' ' ' s)

/-- The fallback signature string hashed in parse_one_card when no natural
id exists: the f-string date|rating|content (pipe-separated). -/
def fallback_sig (date rating content : String) : String :=
  date ++ "|" ++ rating ++ "|" ++ content

/-- parse_one_card: extract fields, normalize date and content, and produce
the row together with its identity: the natural paper id when present,
otherwise the md5 digest of the fallback signature. -/
def parse_one_card (md5h : String → String) (card : Card) : ReviewRow × String :=
  let date := normField card.date
  let content := normField card.content
  let rating := card.rating
  let rid := if card.paperId = "" then md5h (fallback_sig date rating content) else card.paperId
  (⟨rating, date, content⟩, rid)

/-- The per-candidate body of extract_from_cards: parse the card, then skip
it (state unchanged) when its identity is empty, when its normalized
content is empty, or when its identity is already in seen_ids; otherwise
append the row and record the identity. -/
def admit_card (md5h : String → String) (st : AladinState) (card : Card) : AladinState :=
  let pr := parse_one_card md5h card
  if pr.2 = "" then st
  else if pr.1.content = "" then st
  else if pr.2 ∈ st.seen then st
  else { st with rows := st.rows ++ [pr], seen := pr.2 :: st.seen }

/-- extract_from_cards: walk the visible cards, stopping once the target is
reached; a card that raises during parsing (modelled as none) is skipped;
every other card goes through the admission body. -/
def extract_from_cards (md5h : String → String) (target : Nat) :
    AladinState → List (Option Card) → AladinState
  | st, [] => st
  | st, c :: rest =>
    if target ≤ st.rows.length then st
    else
      match c with
      | none => extract_from_cards md5h target st rest
      | some card => extract_from_cards md5h target (admit_card md5h st card) rest

/-- One observed batch of the collect loop: the visible cards at that
iteration, and whether click_more_and_wait succeeded afterwards. -/
def AladinBatch : Type := List (Option Card) × Bool

/-- The stagnation bookkeeping after one batch: with st the state at the
iteration start and st1 the state after extraction, the counter is
incremented when the row count still equals last_count, and otherwise
reset to 0 with last_count refreshed. -/
def update_counters (st st1 : AladinState) : AladinState :=
  if st1.rows.length = st.lastCount then
    { st1 with stagnation := st.stagnation + 1 }
  else
    { st1 with stagnation := 0, lastCount := st1.rows.length }

/-- Body of collect_loop: per iteration, extract from the visible cards,
update the stagnation counter, then stop on target reached, on a failed
advance, or on the stagnation limit; the returned list is the state after
each executed batch. -/
def collect_loop_go (md5h : String → String) (target limit : Nat) :
    AladinState → List AladinBatch → AladinState × StopReason × List AladinState
  | st, trace =>
    if target ≤ st.rows.length then (st, .targetReached, [])
    else
      match trace with
      | [] => (st, .ranOut, [])
      | (cards, ok) :: rest =>
        let st2 := update_counters st (extract_from_cards md5h target st cards)
        if target ≤ st2.rows.length then (st2, .targetReached, [st2])
        else if !ok then (st2, .sourceExhausted, [st2])
        else if limit ≤ st2.stagnation then (st2, .stagnated, [st2])
        else
          match collect_loop_go md5h target limit st2 rest with
          | (fin, reason, hist) => (fin, reason, st2 :: hist)

/-- collect_loop: reset the stagnation counter and last_count on entry, run
the batch loop, and (in myreview mode, when still under target) perform the
final best-effort expansion pass: one more extract_from_cards over the then
visible cards. -/
def collect_loop (md5h : String → String) (target limit : Nat) (myreview : Bool)
    (st : AladinState) (trace : List AladinBatch) (extra : List (Option Card)) :
    AladinState × StopReason × List AladinState :=
  match collect_loop_go md5h target limit
    { st with stagnation := 0, lastCount := st.rows.length } trace with
  | (fin, reason, hist) =>
    if myreview && decide (fin.rows.length < target) then
      let s2 := extract_from_cards md5h target fin extra
      (s2, reason, hist ++ [s2])
    else (fin, reason, hist)

/-- scrape_reviews collection logic: run the hundred-mode loop; if still
under target, refresh and run the myreview-mode loop (with its expansion
tail).  Returns the final state and the states after every batch of the
whole run. -/
def scrape_reviews_run (md5h : String → String) (t1 t2 : List AladinBatch)
    (extra : List (Option Card)) : AladinState × List AladinState :=
  match collect_loop md5h TARGET_COUNT STAGNATION_LIMIT false initState t1 [] with
  | (fin1, _, hist1) =>
    if fin1.rows.length < TARGET_COUNT then
      match collect_loop md5h TARGET_COUNT STAGNATION_LIMIT true fin1 t2 extra with
      | (fin2, _, hist2) => (fin2, hist1 ++ hist2)
    else (fin1, hist1)

/-- visible_card_signatures: the set of signatures of the visible cards;
a card with a natural id contributes id-prefixed, otherwise a nonempty
stripped textContent contributes its md5 digest with the md5 prefix, and a
card raising during the scan (modelled none) or with empty text is skipped. -/
def visible_card_signatures (md5h : String → String) (cards : List (Option Card)) :
    Finset String :=
  cards.foldl (fun acc c =>
    match c with
    | none => acc
    | some card =>
      if card.paperId ≠ "" then insert ("id:" ++ card.paperId) acc
      else
        let txt := Pystr.strip card.textContent
        if txt ≠ "" then insert ("md5:" ++ md5h txt) acc else acc) ∅

/-- The change-detection predicate of click_more_and_wait: an advance is
judged successful when the visible card count exceeds the count captured
before the trigger, or when the set difference of current signatures minus
the before signatures is nonempty. -/
def changedJudgment (md5h : String → String) (beforeN : Nat) (beforeIds : Finset String)
    (cards : List (Option Card)) : Bool :=
  decide (beforeN < cards.length) ||
    decide (0 < ((visible_card_signatures md5h cards) \ beforeIds).card)

/-- click_more_and_wait: up to max_attempts attempts; each attempt captures
the current cards and the presence of a more button, triggers the load-more
action, and judges the attempt by changedJudgment on the cards observed at
the end of the wait; on a timeout with no more button it gives up at once,
otherwise it backs off and retries from the newly observed state. -/
def click_more_and_wait (md5h : String → String) :
    Nat → List (Option Card) → List (Bool × List (Option Card)) → Bool
  | 0, _, _ => false
  | _ + 1, _, [] => false
  | n + 1, cur, (hasMore, after) :: rest =>
    if changedJudgment md5h cur.length (visible_card_signatures md5h cur) after then true
    else if !hasMore then false
    else click_more_and_wait md5h n after rest

/-- CSV output artifact: target encoding, header cells and one cell list
per record. -/
structure CsvFile where
  encoding : String
  header : List String
  records : List (List String)
deriving DecidableEq

/-- Python csv QUOTE_MINIMAL test: a field needs quoting when it contains
the delimiter, the quote character, or a line-terminator character. -/
def csvQuoteNeeded (s : String) : Bool :=
  Pystr.containsChar s (fun c => c = ',' || c = '"' || c = '\n' || c = '\r')

/-- Standard CSV escaping of one field (double internal quotes, wrap in
quotes) when needed. -/
def csvEscapeField (s : String) : String :=
  if csvQuoteNeeded s then "\"" ++ Pystr.doubleQuotes s ++ "\"" else s

/-- Render one CSV line from its cells. -/
def renderCsvRecord (fields : List String) : String :=
  Pystr.joinComma (fields.map csvEscapeField)

/-- Rendered lines of a CSV artifact: header line then one line per record. -/
def CsvFile.lines (f : CsvFile) : List String :=
  renderCsvRecord f.header :: f.records.map renderCsvRecord

/-- save_to_database of AladinCrawler: open with encoding utf-8-sig, write
the header rating,date,content, then one row per collected record in
order. -/
def save_to_database (rows : List (ReviewRow × String)) : CsvFile :=
  ⟨"utf-8-sig", ["rating", "date", "content"],
    rows.map (fun p => [p.1.rating, p.1.date, p.1.content])⟩

end AladinCrawler

namespace KyoboCrawler

/-- One review record, from the dataclass ReviewRow in kyobo_crawler.py:
field order date, content, rating; the rating is the 0.0-10.0 score
derived from the filled-indicator width, modelled as a rational. -/
structure KyoboRow where
  date : String
  content : String
  rating : ℚ
deriving DecidableEq

/-- One review DOM element at the extraction boundary of kyobo_crawler.py:
whether reading it raises StaleElementReferenceException, the raw visible
text (el.text), the texts of its comment_text descendants, and the value
extract_rating_10 computes from its filled-stars style. -/
structure KyoboItem where
  stale : Bool
  fullText : String
  commentTexts : List String
  ratingVal : ℚ
deriving DecidableEq

/-- Crawler state: collected rows, the seen set of (date, content) keys,
the page counter and the checkpointed snapshots. -/
structure KyoboState where
  rows : List KyoboRow
  seen : List (String × String)
  pageNo : Nat
  checkpoints : List (List KyoboRow)
deriving DecidableEq

/-- Initial crawler state. -/
def initState : KyoboState := ⟨[], [], 0, []⟩

/-- The local target of scrape_reviews in kyobo_crawler.py. -/
def scrapeTarget : Nat := 600

/-- The checkpoint_every_pages constant of scrape_reviews. -/
def checkpoint_every_pages : Nat := 3

/-- Test for the DATE_PATTERN regex (four digits, dot, two digits, dot,
two digits) matching at the head of a character list. -/
def matchesDatePattern : List Char → Bool
  | a :: b :: c :: d :: p :: e :: f :: q :: g :: h :: _ =>
    a.isDigit && b.isDigit && c.isDigit && d.isDigit && decide (p = '.') &&
      e.isDigit && f.isDigit && decide (q = '.') && g.isDigit && h.isDigit
  | _ => false

/-- Leftmost match of DATE_PATTERN in a character list (re.search order):
the ten matched characters, when any position matches. -/
def findDateChars : List Char → Option (List Char)
  | [] => none
  | c :: rest =>
    if matchesDatePattern (c :: rest) then some ((c :: rest).take 10)
    else findDateChars rest

/-- extract_date: search the text for DATE_PATTERN and rewrite the match
from dotted to dashed form, returning none when no match exists. -/
def extract_date (text : String) : Option String :=
  (findDateChars text.data).map
    (fun l => String.mk (l.map (fun c => if c = '.' then '-' else c)))

/-- parse_review: strip the element text, require a date (otherwise none),
take the stripped text of the first comment_text descendant as content
(empty when there is none), and read the rating. -/
def parse_review (el : KyoboItem) : Option KyoboRow :=
  let full := Pystr.strip el.fullText
  match extract_date full with
  | none => none
  | some d =>
    let content :=
      match el.commentTexts with
      | [] => ""
      | t :: _ => Pystr.strip t
    some ⟨d, content, el.ratingVal⟩

/-- The per-item body of scrape_current_page: a stale element is skipped;
an item whose parse yields none is skipped; an item whose (date, content)
key was already seen is skipped; otherwise the key is recorded and the row
appended. -/
def admit_item (st : KyoboState) (el : KyoboItem) : KyoboState :=
  if el.stale then st
  else
    match parse_review el with
    | none => st
    | some row =>
      if (row.date, row.content) ∈ st.seen then st
      else { st with rows := st.rows ++ [row], seen := (row.date, row.content) :: st.seen }

/-- scrape_current_page: walk the visible review items, returning early once
the global target is reached; every item goes through the admission body. -/
def scrape_current_page (target : Nat) : KyoboState → List KyoboItem → KyoboState
  | st, [] => st
  | st, el :: rest =>
    if target ≤ st.rows.length then st
    else scrape_current_page target (admit_item st el) rest

/-- One loop iteration observation of scrape_reviews: the visible review
items of the page, and whether move_to_next_page completed without raising. -/
def KyoboPage : Type := List KyoboItem × Bool

/-- The pagination loop of scrape_reviews: while under target, bump the page
counter, scrape the current page, stop with the target reached when the
scrape filled it, abort when moving to the next page raises (the exception
then escapes to the handler), checkpoint every checkpoint_every_pages
pages, and continue; the returned list is the state after each page. -/
def scrape_reviews_loop (target ckptEvery : Nat) :
    KyoboState → List KyoboPage → KyoboState × StopReason × List KyoboState
  | st, trace =>
    if target ≤ st.rows.length then (st, .targetReached, [])
    else
      match trace with
      | [] => (st, .ranOut, [])
      | (items, moveOk) :: rest =>
        let st1 := scrape_current_page target { st with pageNo := st.pageNo + 1 } items
        if target ≤ st1.rows.length then (st1, .targetReached, [st1])
        else if !moveOk then (st1, .loadError, [st1])
        else
          let st2 :=
            if st1.pageNo % ckptEvery = 0 then
              { st1 with checkpoints := st1.checkpoints ++ [st1.rows] }
            else st1
          match scrape_reviews_loop target ckptEvery st2 rest with
          | (fin, reason, hist) => (fin, reason, st2 :: hist)

/-- The full collection run of scrape_reviews, from a fresh state with the
source constants. -/
def scrape_reviews_run (trace : List KyoboPage) :
    KyoboState × StopReason × List KyoboState :=
  scrape_reviews_loop scrapeTarget checkpoint_every_pages initState trace

/-- Textual rendering pandas uses for the rating column cell. -/
def ratingRepr (q : ℚ) : String := toString q

/-- save_to_database of KyoboCrawler: pandas DataFrame of the row
dataclasses written with encoding utf-8-sig and no index; the header comes
from the dataclass field order date, content, rating, and an empty frame
(no rows) has no columns at all, hence an empty header line. -/
def save_to_database (rows : List KyoboRow) : AladinCrawler.CsvFile :=
  ⟨"utf-8-sig",
    if rows.isEmpty then [] else ["date", "content", "rating"],
    rows.map (fun r => [r.date, r.content, ratingRepr r.rating])⟩

end KyoboCrawler

namespace Yes24Crawler

/-- One collected review of yes24_crawler.py: the dict with keys rating,
date, content. -/
structure Yes24Row where
  rating : String
  date : String
  content : String
deriving DecidableEq

/-- One reviewInfoGrp element at the parsing boundary: whether parsing the
group raises, the numeric suffix of a total_rating class when one exists,
the stripped date text (empty when absent) and the stripped content text
(empty when absent). -/
structure Group where
  raises : Bool
  ratingClass : Option Nat
  date : String
  content : String
deriving DecidableEq

/-- Crawler state: reviews_data and the seen set of contents. -/
structure Yes24State where
  reviews_data : List Yes24Row
  seen : List String
deriving DecidableEq

/-- Initial crawler state. -/
def initState : Yes24State := ⟨[], []⟩

/-- The target_count attribute of Yes24Crawler. -/
def target_count : Nat := 550

/-- Rating derivation for a group: the total_rating class suffix halved by
integer division, defaulting to 5 when no such class exists. -/
def groupRating (g : Group) : String :=
  match g.ratingClass with
  | some n => toString (n / 2)
  | none => "5"

/-- The admission body for one non-raising group: the review is admitted
exactly when its content is nonempty and not yet seen. -/
def admit_group (st : Yes24State) (g : Group) : Yes24State :=
  if g.content ≠ "" ∧ g.content ∉ st.seen then
    { st with
      reviews_data := st.reviews_data ++ [⟨groupRating g, g.date, g.content⟩],
      seen := g.content :: st.seen }
  else st

/-- The per-page group loop: a group that raises is skipped (its break
check is also skipped, as the exception jumps to the handler); otherwise
the group goes through the admission body, and after each non-raising
group the loop breaks once the target is reached. -/
def process_page (target : Nat) : Yes24State → List Group → Yes24State
  | st, [] => st
  | st, g :: rest =>
    if g.raises then process_page target st rest
    else
      let st1 := admit_group st g
      if target ≤ st1.reviews_data.length then st1
      else process_page target st1 rest

/-- One page observation: none when loading the review page raised (the
loop then breaks), otherwise the parsed reviewInfoGrp elements. -/
def Yes24PageObs : Type := Option (List Group)

/-- The pagination loop of scrape_reviews: while under target, load the next
page (a failed load breaks the loop), break when the page has no review
groups, otherwise process the groups and continue; the returned list is the
state after each processed page. -/
def scrape_reviews_loop (target : Nat) :
    Yes24State → List Yes24PageObs → Yes24State × StopReason × List Yes24State
  | st, trace =>
    if target ≤ st.reviews_data.length then (st, .targetReached, [])
    else
      match trace with
      | [] => (st, .ranOut, [])
      | none :: _ => (st, .loadError, [])
      | some groups :: rest =>
        if groups.isEmpty then (st, .sourceExhausted, [])
        else
          let st1 := process_page target st groups
          match scrape_reviews_loop target st1 rest with
          | (fin, reason, hist) => (fin, reason, st1 :: hist)

/-- The full collection run of scrape_reviews, from a fresh state with the
source target. -/
def scrape_reviews_run (trace : List Yes24PageObs) :
    Yes24State × StopReason × List Yes24State :=
  scrape_reviews_loop target_count initState trace

/-- The save-time filter of save_to_database: keep rows whose content is
nonempty and not kept before (first occurrence wins, order preserved). -/
def save_filter : List Yes24Row → List String → List Yes24Row
  | [], _ => []
  | r :: rest, seen =>
    if r.content ≠ "" ∧ r.content ∉ seen then r :: save_filter rest (r.content :: seen)
    else save_filter rest seen

/-- save_to_database of Yes24Crawler: return at once (no file touched) when
reviews_data is empty; otherwise write, with encoding utf-8-sig, the
DictWriter header rating,date,content and one row per kept record. -/
def save_to_database (data : List Yes24Row) : Option AladinCrawler.CsvFile :=
  if data.isEmpty then none
  else
    some ⟨"utf-8-sig", ["rating", "date", "content"],
      (save_filter data []).map (fun r => [r.rating, r.date, r.content])⟩

end Yes24Crawler

namespace SeedReviews

/-- One seeded review document of seed_reviews_to_mongo.py: its _id and the
site, rating, date and content fields. -/
structure Doc where
  id : String
  site : String
  rating : String
  date : String
  content : String
deriving DecidableEq

/-- The string hashed by make_row_id: the f-string joining site, date,
rating and content with double-pipe separators. -/
def make_row_id_key (site date rating content : String) : String :=
  site ++ "||" ++ date ++ "||" ++ rating ++ "||" ++ content

/-- make_row_id: the sha256 hex digest of the key string. -/
def make_row_id (sha256h : String → String) (site date rating content : String) : String :=
  sha256h (make_row_id_key site date rating content)

/-- Bulk-write statistics in the shape upsert_many returns. -/
structure UpsertStats where
  matched : Nat
  inserted : Nat
  modified : Nat
deriving DecidableEq

/-- Sequential semantics of the bulk of UpdateOne operations upsert_many
issues: each operation filters on _id with a set-on-insert update, so a
document whose _id is present counts as matched and leaves the store
untouched (set-on-insert never modifies a matched document), and an absent
_id is inserted and counted by upserted_count. -/
def upsert_go : List Doc → List Doc → UpsertStats → List Doc × UpsertStats
  | store, [], stats => (store, stats)
  | store, d :: rest, stats =>
    if store.any (fun s => s.id == d.id) then
      upsert_go store rest { stats with matched := stats.matched + 1 }
    else
      upsert_go (store ++ [d]) rest { stats with inserted := stats.inserted + 1 }

/-- upsert_many: run the bulk against the store; an empty document list
reports all-zero statistics without touching the store. -/
def upsert_many (store docs : List Doc) : List Doc × UpsertStats :=
  upsert_go store docs ⟨0, 0, 0⟩

end SeedReviews

namespace ExitPaths

/-- The externally visible steps of a scrape_reviews call, for the
exception-flow model: starting the browser, the initial page navigation,
the collection logic as a whole, a checkpoint flush, the final save, and
the two teardown steps (driver.quit and clearing self.driver). -/
inductive CAct where
  | startBrowser
  | navigate
  | collect
  | checkpoint
  | finalSave
  | quitDriver
  | clearDriver
deriving DecidableEq

/-- How a modelled program fragment finishes: normally, by an early
return statement, or by an escaping exception. -/
inductive Outcome where
  | ok
  | early
  | exn
deriving DecidableEq

/-- Straight-line programs with Python exception structure: primitive
actions (which may raise, governed by the environment), sequencing, an
except-all handler with optional re-raise, a finally block, and an early
return. -/
inductive Prog where
  | skip
  | ret
  | act (a : CAct)
  | seq (p q : Prog)
  | tryCatch (body handler : Prog) (rethrow : Bool)
  | tryFinally (body fin : Prog)

/-- Execution of a program under an environment telling which actions
raise: the trace of performed actions and the outcome.  A raising action
performs nothing; seq stops on a non-ok outcome; tryCatch intercepts only
exceptions, runs the handler and re-raises when asked; tryFinally always
runs the finally block, whose own outcome takes precedence when abnormal. -/
def Prog.run (fails : CAct → Bool) : Prog → List CAct × Outcome
  | .skip => ([], .ok)
  | .ret => ([], .early)
  | .act a => if fails a then ([], .exn) else ([a], .ok)
  | .seq p q =>
    match p.run fails with
    | (t, .ok) =>
      let r := q.run fails
      (t ++ r.1, r.2)
    | (t, o) => (t, o)
  | .tryCatch b h rethrow =>
    match b.run fails with
    | (t, .exn) =>
      let r := h.run fails
      (t ++ r.1,
        match r.2 with
        | .ok => if rethrow then .exn else .ok
        | o => o)
    | r => r
  | .tryFinally b f =>
    let rb := b.run fails
    let rf := f.run fails
    (rb.1 ++ rf.1, match rf.2 with | .ok => rb.2 | o => o)

/-- The shutdown helper of kyobo_crawler.py: quit the driver inside an
exception-swallowing try, then set self.driver to None. -/
def kyoboShutdown : Prog :=
  .seq (.tryCatch (.act .quitDriver) .skip false) (.act .clearDriver)

/-- scrape_reviews of kyobo_crawler.py: start the browser, then inside
try/except/finally run the collection loop and the final save; the handler
performs a best-effort checkpoint flush (itself exception-swallowing) and
re-raises; the finally block always runs the shutdown helper. -/
def kyoboScrapeProg : Prog :=
  .seq (.act .startBrowser)
    (.tryFinally
      (.tryCatch (.seq (.act .collect) (.act .finalSave))
        (.tryCatch (.act .checkpoint) .skip false) true)
      kyoboShutdown)

/-- scrape_reviews of aladin_crawler.py: start the browser, navigate to the
product page, run both collection loops, then quit the driver inside an
exception-swallowing try on the straight-line exit; no handler or finally
surrounds the navigation or collection, and self.driver is never cleared. -/
def aladinScrapeProg : Prog :=
  .seq (.act .startBrowser)
    (.seq (.act .navigate)
      (.seq (.act .collect)
        (.tryCatch (.act .quitDriver) .skip false)))

/-- scrape_reviews of yes24_crawler.py: start the browser; the product page
navigation sits in a try whose handler logs and returns early; then the
pagination loop runs (page-level failures break the loop inside it, but an
exception escaping the parsing logic propagates), and on the straight-line
exit the driver is quit inside an exception-swallowing try and cleared. -/
def yes24ScrapeProg : Prog :=
  .seq (.act .startBrowser)
    (.seq (.tryCatch (.act .navigate) .ret false)
      (.seq (.act .collect)
        (.seq (.tryCatch (.act .quitDriver) .skip false) (.act .clearDriver))))

/-- Environment in which the collection logic raises an unrecoverable
exception and everything else works. -/
def failsCollect : CAct → Bool := fun a => a == .collect

/-- Environment in which the initial page navigation fails and everything
else works. -/
def failsNavigate : CAct → Bool := fun a => a == .navigate

/-- Environment in which nothing fails. -/
def failsNone : CAct → Bool := fun _ => false

end ExitPaths

/-- Dedup invariant of an Aladin crawler state: the identities of the
collected rows are pairwise distinct, each of them is recorded in
seen_ids, and every collected row has nonempty content. -/
def AladinCrawler.StateInv (st : AladinCrawler.AladinState) : Prop :=
  (st.rows.map Prod.snd).Nodup ∧
    (∀ rid ∈ st.rows.map Prod.snd, rid ∈ st.seen) ∧
    ∀ p ∈ st.rows, p.1.content ≠ ""

/-- The (date, content) deduplication key of a collected Kyobo row. -/
def KyoboCrawler.rowKey (r : KyoboCrawler.KyoboRow) : String × String :=
  (r.date, r.content)

/-- Dedup invariant of a Kyobo crawler state: the (date, content) keys of
the collected rows are pairwise distinct and each of them is recorded in
the seen set. -/
def KyoboCrawler.StateInv (st : KyoboCrawler.KyoboState) : Prop :=
  (st.rows.map KyoboCrawler.rowKey).Nodup ∧
    ∀ k ∈ st.rows.map KyoboCrawler.rowKey, k ∈ st.seen

/-- Dedup invariant of a Yes24 crawler state: the contents of the collected
reviews are pairwise distinct, each of them is recorded in the seen set,
and every collected review has nonempty content. -/
def Yes24Crawler.StateInv (st : Yes24Crawler.Yes24State) : Prop :=
  (st.reviews_data.map Yes24Crawler.Yes24Row.content).Nodup ∧
    (∀ c ∈ st.reviews_data.map Yes24Crawler.Yes24Row.content, c ∈ st.seen) ∧
    ∀ r ∈ st.reviews_data, r.content ≠ ""

/-- A string containing no pipe character; the pipe is the separator of
both hashed key formats, so separator-free fields make the key encodings
unambiguous. -/
def pipeFree (s : String) : Prop := ∀ c ∈ s.data, c ≠ '|'

namespace Fixtures

/-- A visible Aladin card carrying the natural paper id 1. -/
def cardA : AladinCrawler.Card := ⟨"1", "", "", "", ""⟩

/-- A visible Aladin card carrying the natural paper id 2. -/
def cardB : AladinCrawler.Card := ⟨"2", "", "", "", ""⟩

/-- An Aladin card with no natural id and concrete normalized fields. -/
def cardNoId : AladinCrawler.Card := ⟨"", "5", "2024-01-01", "nice", "t"⟩

/-- A Kyobo review element whose text contains a date but which has no
comment_text descendant, so its parsed content is empty. -/
def kyoboNoContentItem : KyoboCrawler.KyoboItem := ⟨false, "ook 2024.01.01", [], 0⟩

/-- A Kyobo review element with a date and a nonempty comment text. -/
def kyoboGoodItem : KyoboCrawler.KyoboItem := ⟨false, "ja 2024.01.02", ["good"], 3⟩

/-- A Yes24 review group that parses cleanly with nonempty content. -/
def yesGroupGood : Yes24Crawler.Group := ⟨false, some 8, "2024-01-03", "fine"⟩

/-- A Yes24 review group whose parsing raises. -/
def yesGroupRaise : Yes24Crawler.Group := ⟨true, none, "", ""⟩

/-- A seeded review document with id a. -/
def docA : SeedReviews.Doc := ⟨"a", "kyobo", "5", "2024-01-01", "x"⟩

/-- A seeded review document with id b. -/
def docB : SeedReviews.Doc := ⟨"b", "kyobo", "4", "2024-01-02", "y"⟩

/-- A Kyobo row with nonempty content, for exercising the CSV writer. -/
def kyoboRow1 : KyoboCrawler.KyoboRow := ⟨"2024-01-01", "hello", 10⟩

end Fixtures

namespace AladinCrawler

theorem admit_card_inv (md5h : String → String) (st : AladinState) (card : Card)
    (h : StateInv st) : StateInv (admit_card md5h st card) := by
  simp only [admit_card]
  split
  · exact h
  split
  · exact h
  split
  · exact h
  rename_i h1 h2 h3
  obtain ⟨hnd, hsub, hcont⟩ := h
  refine ⟨?_, ?_, ?_⟩
  · simp only [List.map_append, List.map_cons, List.map_nil]
    rw [List.nodup_append]
    refine ⟨hnd, List.nodup_singleton _, ?_⟩
    intro x hx hx1
    simp only [List.mem_singleton] at hx1
    subst hx1
    exact h3 (hsub _ hx)
  · intro rid hrid
    simp only [List.map_append, List.map_cons, List.map_nil, List.mem_append,
      List.mem_singleton] at hrid
    rcases hrid with hrid | hrid
    · exact List.mem_cons_of_mem _ (hsub _ hrid)
    · subst hrid
      exact List.mem_cons_self _ _
  · intro p hp
    rcases List.mem_append.mp hp with hp | hp
    · exact hcont p hp
    · simp only [List.mem_singleton] at hp
      subst hp
      exact h2

theorem admit_card_counters (md5h : String → String) (st : AladinState) (card : Card) :
    (admit_card md5h st card).stagnation = st.stagnation ∧
      (admit_card md5h st card).lastCount = st.lastCount := by
  simp only [admit_card]
  split_ifs <;> simp

theorem extract_from_cards_inv (md5h : String → String) (target : Nat)
    (cards : List (Option Card)) :
    ∀ st : AladinState, StateInv st → StateInv (extract_from_cards md5h target st cards) := by
  induction cards with
  | nil => intro st h; simpa [extract_from_cards] using h
  | cons c rest ih =>
    intro st h
    cases c with
    | none =>
      rw [extract_from_cards.eq_2]
      split
      · exact h
      · exact ih st h
    | some card =>
      rw [extract_from_cards.eq_3]
      split
      · exact h
      · exact ih _ (admit_card_inv md5h st card h)

theorem extract_from_cards_counters (md5h : String → String) (target : Nat)
    (cards : List (Option Card)) :
    ∀ st : AladinState,
      (extract_from_cards md5h target st cards).stagnation = st.stagnation ∧
        (extract_from_cards md5h target st cards).lastCount = st.lastCount := by
  induction cards with
  | nil => intro st; simp [extract_from_cards]
  | cons c rest ih =>
    intro st
    cases c with
    | none =>
      rw [extract_from_cards.eq_2]
      split
      · exact ⟨rfl, rfl⟩
      · exact ih st
    | some card =>
      rw [extract_from_cards.eq_3]
      split
      · exact ⟨rfl, rfl⟩
      · have h1 := admit_card_counters md5h st card
        have h2 := ih (admit_card md5h st card)
        exact ⟨h2.1.trans h1.1, h2.2.trans h1.2⟩

end AladinCrawler

namespace AladinCrawler

theorem update_counters_inv (st st1 : AladinState) (h : StateInv st1) :
    StateInv (update_counters st st1) := by
  unfold update_counters
  split <;> exact h

theorem update_counters_rows (st st1 : AladinState) :
    (update_counters st st1).rows = st1.rows := by
  unfold update_counters
  split <;> rfl

theorem update_counters_stagnation (st st1 : AladinState) :
    (update_counters st st1).stagnation = st.stagnation + 1 ∨
      (update_counters st st1).stagnation = 0 := by
  unfold update_counters
  split
  · exact Or.inl rfl
  · exact Or.inr rfl

theorem collect_loop_go_inv (md5h : String → String) (target limit : Nat)
    (trace : List AladinBatch) :
    ∀ st : AladinState, StateInv st →
      StateInv (collect_loop_go md5h target limit st trace).1 ∧
        ∀ x ∈ (collect_loop_go md5h target limit st trace).2.2, StateInv x := by
  induction trace with
  | nil =>
    intro st h
    rw [collect_loop_go]
    split
    · exact ⟨h, fun x hx => by simp at hx⟩
    · exact ⟨h, fun x hx => by simp at hx⟩
  | cons b rest ih =>
    intro st h
    obtain ⟨cards, ok⟩ := b
    rw [collect_loop_go]
    dsimp only
    have hst2 := update_counters_inv st _ (extract_from_cards_inv md5h target cards st h)
    split
    · exact ⟨h, fun x hx => by simp at hx⟩
    · split
      · refine ⟨hst2, fun x hx => ?_⟩
        simp only [List.mem_singleton] at hx
        subst hx; exact hst2
      · split
        · refine ⟨hst2, fun x hx => ?_⟩
          simp only [List.mem_singleton] at hx
          subst hx; exact hst2
        · split
          · refine ⟨hst2, fun x hx => ?_⟩
            simp only [List.mem_singleton] at hx
            subst hx; exact hst2
          · rcases hres : collect_loop_go md5h target limit
                (update_counters st (extract_from_cards md5h target st cards)) rest with
              ⟨fin, reason, hist⟩
            have hrec := ih _ hst2
            rw [hres] at hrec
            dsimp only
            dsimp only at hrec
            refine ⟨hrec.1, fun x hx => ?_⟩
            rcases List.mem_cons.mp hx with hx | hx
            · subst hx; exact hst2
            · exact hrec.2 x hx

end AladinCrawler

namespace AladinCrawler

theorem collect_loop_go_stagnation (md5h : String → String) (target limit : Nat)
    (trace : List AladinBatch) :
    ∀ st : AladinState, st.stagnation < limit →
      (collect_loop_go md5h target limit st trace).1.stagnation ≤ limit ∧
        (∀ x ∈ (collect_loop_go md5h target limit st trace).2.2, x.stagnation ≤ limit) ∧
        ((collect_loop_go md5h target limit st trace).2.1 = .stagnated →
          (collect_loop_go md5h target limit st trace).1.stagnation = limit) := by
  induction trace with
  | nil =>
    intro st h
    rw [collect_loop_go]
    split
    · exact ⟨Nat.le_of_lt h, fun x hx => by simp at hx, fun hh => by simp at hh⟩
    · exact ⟨Nat.le_of_lt h, fun x hx => by simp at hx, fun hh => by simp at hh⟩
  | cons b rest ih =>
    intro st h
    obtain ⟨cards, ok⟩ := b
    rw [collect_loop_go]
    dsimp only
    have hst2 : (update_counters st (extract_from_cards md5h target st cards)).stagnation ≤ limit := by
      rcases update_counters_stagnation st (extract_from_cards md5h target st cards) with hc | hc
      · rw [hc]; exact h
      · rw [hc]; exact Nat.zero_le _
    split
    · exact ⟨Nat.le_of_lt h, fun x hx => by simp at hx, fun hh => by simp at hh⟩
    · split
      · refine ⟨hst2, fun x hx => ?_, fun hh => by simp at hh⟩
        simp only [List.mem_singleton] at hx
        subst hx; exact hst2
      · split
        · refine ⟨hst2, fun x hx => ?_, fun hh => by simp at hh⟩
          simp only [List.mem_singleton] at hx
          subst hx; exact hst2
        · split
          · rename_i hge
            refine ⟨hst2, fun x hx => ?_, fun _ => Nat.le_antisymm hst2 hge⟩
            simp only [List.mem_singleton] at hx
            subst hx; exact hst2
          · rename_i hlt
            have hlt2 : (update_counters st (extract_from_cards md5h target st cards)).stagnation < limit :=
              Nat.lt_of_not_le hlt
            rcases hres : collect_loop_go md5h target limit
                (update_counters st (extract_from_cards md5h target st cards)) rest with
              ⟨fin, reason, hist⟩
            have hrec := ih _ hlt2
            rw [hres] at hrec
            dsimp only
            dsimp only at hrec
            refine ⟨hrec.1, fun x hx => ?_, hrec.2.2⟩
            rcases List.mem_cons.mp hx with hx | hx
            · subst hx; exact hst2
            · exact hrec.2.1 x hx

theorem collect_loop_go_target (md5h : String → String) (target limit : Nat)
    (trace : List AladinBatch) :
    ∀ st : AladinState,
      (collect_loop_go md5h target limit st trace).2.1 = .targetReached →
        target ≤ (collect_loop_go md5h target limit st trace).1.rows.length := by
  induction trace with
  | nil =>
    intro st
    rw [collect_loop_go]
    split
    · rename_i hc
      exact fun _ => hc
    · exact fun hh => by simp at hh
  | cons b rest ih =>
    intro st
    obtain ⟨cards, ok⟩ := b
    rw [collect_loop_go]
    dsimp only
    split
    · rename_i hc
      exact fun _ => hc
    · split
      · rename_i hc
        exact fun _ => hc
      · split
        · exact fun hh => by simp at hh
        · split
          · exact fun hh => by simp at hh
          · rcases hres : collect_loop_go md5h target limit
                (update_counters st (extract_from_cards md5h target st cards)) rest with
              ⟨fin, reason, hist⟩
            have hrec := ih (update_counters st (extract_from_cards md5h target st cards))
            rw [hres] at hrec
            dsimp only
            dsimp only at hrec
            exact hrec

theorem collect_loop_inv (md5h : String → String) (target limit : Nat) (myreview : Bool)
    (st : AladinState) (trace : List AladinBatch) (extra : List (Option Card))
    (h : StateInv st) :
    StateInv (collect_loop md5h target limit myreview st trace extra).1 ∧
      ∀ x ∈ (collect_loop md5h target limit myreview st trace extra).2.2, StateInv x := by
  unfold collect_loop
  rcases hres : collect_loop_go md5h target limit
      { st with stagnation := 0, lastCount := st.rows.length } trace with ⟨fin, reason, hist⟩
  have hgo := collect_loop_go_inv md5h target limit trace
    { st with stagnation := 0, lastCount := st.rows.length } h
  rw [hres] at hgo
  dsimp only at hgo
  dsimp only
  split
  · refine ⟨extract_from_cards_inv md5h target extra fin hgo.1, fun x hx => ?_⟩
    rcases List.mem_append.mp hx with hx | hx
    · exact hgo.2 x hx
    · simp only [List.mem_singleton] at hx
      subst hx
      exact extract_from_cards_inv md5h target extra fin hgo.1
  · exact hgo

theorem collect_loop_stagnation (md5h : String → String) (target limit : Nat)
    (myreview : Bool) (st : AladinState) (trace : List AladinBatch)
    (extra : List (Option Card)) (hl : 0 < limit) :
    (∀ x ∈ (collect_loop md5h target limit myreview st trace extra).2.2,
        x.stagnation ≤ limit) ∧
      ((collect_loop md5h target limit myreview st trace extra).2.1 = .stagnated →
        (collect_loop md5h target limit myreview st trace extra).1.stagnation = limit) := by
  unfold collect_loop
  rcases hres : collect_loop_go md5h target limit
      { st with stagnation := 0, lastCount := st.rows.length } trace with ⟨fin, reason, hist⟩
  have hgo := collect_loop_go_stagnation md5h target limit trace
    { st with stagnation := 0, lastCount := st.rows.length } hl
  rw [hres] at hgo
  dsimp only at hgo
  dsimp only
  split
  · have hext := (extract_from_cards_counters md5h target extra fin).1
    refine ⟨fun x hx => ?_, fun hr => ?_⟩
    · rcases List.mem_append.mp hx with hx | hx
      · exact hgo.2.1 x hx
      · simp only [List.mem_singleton] at hx
        subst hx
        rw [hext]
        exact hgo.1
    · rw [hext]
      exact hgo.2.2 hr
  · exact ⟨hgo.2.1, hgo.2.2⟩

theorem collect_loop_target (md5h : String → String) (target limit : Nat)
    (myreview : Bool) (st : AladinState) (trace : List AladinBatch)
    (extra : List (Option Card)) :
    (collect_loop md5h target limit myreview st trace extra).2.1 = .targetReached →
      target ≤ (collect_loop md5h target limit myreview st trace extra).1.rows.length := by
  unfold collect_loop
  rcases hres : collect_loop_go md5h target limit
      { st with stagnation := 0, lastCount := st.rows.length } trace with ⟨fin, reason, hist⟩
  have hgo := collect_loop_go_target md5h target limit trace
    { st with stagnation := 0, lastCount := st.rows.length }
  rw [hres] at hgo
  dsimp only at hgo
  dsimp only
  split
  · rename_i hcond
    intro hr
    have := hgo hr
    simp only [Bool.and_eq_true, decide_eq_true_eq] at hcond
    exact absurd this (Nat.not_le_of_lt hcond.2)
  · exact hgo

theorem scrape_reviews_run_inv (md5h : String → String) (t1 t2 : List AladinBatch)
    (extra : List (Option Card)) :
    StateInv (scrape_reviews_run md5h t1 t2 extra).1 ∧
      ∀ x ∈ (scrape_reviews_run md5h t1 t2 extra).2, StateInv x := by
  have hinit : StateInv initState := by
    refine ⟨by simp [initState], fun r hr => ?_, fun p hp => ?_⟩
    · simp [initState] at hr
    · simp [initState] at hp
  unfold scrape_reviews_run
  rcases hres1 : collect_loop md5h TARGET_COUNT STAGNATION_LIMIT false initState t1 [] with
    ⟨fin1, r1, hist1⟩
  have h1 := collect_loop_inv md5h TARGET_COUNT STAGNATION_LIMIT false initState t1 [] hinit
  rw [hres1] at h1
  dsimp only at h1
  dsimp only
  split
  · rcases hres2 : collect_loop md5h TARGET_COUNT STAGNATION_LIMIT true fin1 t2 extra with
      ⟨fin2, r2, hist2⟩
    have h2 := collect_loop_inv md5h TARGET_COUNT STAGNATION_LIMIT true fin1 t2 extra h1.1
    rw [hres2] at h2
    dsimp only at h2
    dsimp only
    refine ⟨h2.1, fun x hx => ?_⟩
    rcases List.mem_append.mp hx with hx | hx
    · exact h1.2 x hx
    · exact h2.2 x hx
  · exact h1

end AladinCrawler

namespace KyoboCrawler

theorem admit_item_inv (st : KyoboState) (el : KyoboItem) (h : StateInv st) :
    StateInv (admit_item st el) := by
  unfold admit_item
  split
  · exact h
  · rcases hp : parse_review el with _ | row
    · exact h
    · dsimp only
      split
      · exact h
      · rename_i hseen
        obtain ⟨hnd, hsub⟩ := h
        refine ⟨?_, ?_⟩
        · simp only [List.map_append, List.map_cons, List.map_nil]
          rw [List.nodup_append]
          refine ⟨hnd, List.nodup_singleton _, ?_⟩
          intro x hx hx1
          simp only [List.mem_singleton] at hx1
          subst hx1
          exact hseen (hsub _ hx)
        · intro k hk
          simp only [List.map_append, List.map_cons, List.map_nil, List.mem_append,
            List.mem_singleton] at hk
          rcases hk with hk | hk
          · exact List.mem_cons_of_mem _ (hsub _ hk)
          · subst hk
            exact List.mem_cons_self _ _

theorem scrape_current_page_inv (target : Nat) (items : List KyoboItem) :
    ∀ st : KyoboState, StateInv st → StateInv (scrape_current_page target st items) := by
  induction items with
  | nil => intro st h; simpa [scrape_current_page] using h
  | cons el rest ih =>
    intro st h
    rw [scrape_current_page]
    split
    · exact h
    · exact ih _ (admit_item_inv st el h)

theorem scrape_reviews_loop_inv (target ckptEvery : Nat) (trace : List KyoboPage) :
    ∀ st : KyoboState, StateInv st →
      StateInv (scrape_reviews_loop target ckptEvery st trace).1 ∧
        ∀ x ∈ (scrape_reviews_loop target ckptEvery st trace).2.2, StateInv x := by
  induction trace with
  | nil =>
    intro st h
    rw [scrape_reviews_loop]
    split
    · exact ⟨h, fun x hx => by simp at hx⟩
    · exact ⟨h, fun x hx => by simp at hx⟩
  | cons b rest ih =>
    intro st h
    obtain ⟨items, moveOk⟩ := b
    rw [scrape_reviews_loop]
    dsimp only
    have hst1 : StateInv (scrape_current_page target { st with pageNo := st.pageNo + 1 } items) :=
      scrape_current_page_inv target items _ h
    split
    · exact ⟨h, fun x hx => by simp at hx⟩
    · split
      · refine ⟨hst1, fun x hx => ?_⟩
        simp only [List.mem_singleton] at hx
        subst hx; exact hst1
      · split
        · refine ⟨hst1, fun x hx => ?_⟩
          simp only [List.mem_singleton] at hx
          subst hx; exact hst1
        · have hst2 : StateInv
              (if (scrape_current_page target { st with pageNo := st.pageNo + 1 } items).pageNo %
                    ckptEvery = 0 then
                { scrape_current_page target { st with pageNo := st.pageNo + 1 } items with
                  checkpoints :=
                    (scrape_current_page target { st with pageNo := st.pageNo + 1 } items).checkpoints ++
                      [(scrape_current_page target { st with pageNo := st.pageNo + 1 } items).rows] }
              else scrape_current_page target { st with pageNo := st.pageNo + 1 } items) := by
            split
            · exact hst1
            · exact hst1
          rcases hres : scrape_reviews_loop target ckptEvery
              (if (scrape_current_page target { st with pageNo := st.pageNo + 1 } items).pageNo %
                    ckptEvery = 0 then
                { scrape_current_page target { st with pageNo := st.pageNo + 1 } items with
                  checkpoints :=
                    (scrape_current_page target { st with pageNo := st.pageNo + 1 } items).checkpoints ++
                      [(scrape_current_page target { st with pageNo := st.pageNo + 1 } items).rows] }
              else scrape_current_page target { st with pageNo := st.pageNo + 1 } items) rest with
            ⟨fin, reason, hist⟩
          have hrec := ih _ hst2
          rw [hres] at hrec
          dsimp only
          dsimp only at hrec
          refine ⟨hrec.1, fun x hx => ?_⟩
          rcases List.mem_cons.mp hx with hx | hx
          · subst hx; exact hst2
          · exact hrec.2 x hx

theorem scrape_reviews_loop_target (target ckptEvery : Nat) (trace : List KyoboPage) :
    ∀ st : KyoboState,
      (scrape_reviews_loop target ckptEvery st trace).2.1 = .targetReached →
        target ≤ (scrape_reviews_loop target ckptEvery st trace).1.rows.length := by
  induction trace with
  | nil =>
    intro st
    rw [scrape_reviews_loop]
    split
    · rename_i hc
      exact fun _ => hc
    · exact fun hh => by simp at hh
  | cons b rest ih =>
    intro st
    obtain ⟨items, moveOk⟩ := b
    rw [scrape_reviews_loop]
    dsimp only
    split
    · rename_i hc
      exact fun _ => hc
    · split
      · rename_i hc
        exact fun _ => hc
      · split
        · exact fun hh => by simp at hh
        · rcases hres : scrape_reviews_loop target ckptEvery
              (if (scrape_current_page target { st with pageNo := st.pageNo + 1 } items).pageNo %
                    ckptEvery = 0 then
                { scrape_current_page target { st with pageNo := st.pageNo + 1 } items with
                  checkpoints :=
                    (scrape_current_page target { st with pageNo := st.pageNo + 1 } items).checkpoints ++
                      [(scrape_current_page target { st with pageNo := st.pageNo + 1 } items).rows] }
              else scrape_current_page target { st with pageNo := st.pageNo + 1 } items) rest with
            ⟨fin, reason, hist⟩
          have hrec := ih
            (if (scrape_current_page target { st with pageNo := st.pageNo + 1 } items).pageNo %
                  ckptEvery = 0 then
              { scrape_current_page target { st with pageNo := st.pageNo + 1 } items with
                checkpoints :=
                  (scrape_current_page target { st with pageNo := st.pageNo + 1 } items).checkpoints ++
                    [(scrape_current_page target { st with pageNo := st.pageNo + 1 } items).rows] }
            else scrape_current_page target { st with pageNo := st.pageNo + 1 } items)
          rw [hres] at hrec
          dsimp only
          dsimp only at hrec
          exact hrec

end KyoboCrawler

namespace Yes24Crawler

theorem admit_group_inv (st : Yes24State) (g : Group) (h : StateInv st) :
    StateInv (admit_group st g) := by
  unfold admit_group
  split
  · rename_i hcond
    obtain ⟨hnd, hsub, hcont⟩ := h
    refine ⟨?_, ?_, ?_⟩
    · simp only [List.map_append, List.map_cons, List.map_nil]
      rw [List.nodup_append]
      refine ⟨hnd, List.nodup_singleton _, ?_⟩
      intro x hx hx1
      simp only [List.mem_singleton] at hx1
      subst hx1
      exact hcond.2 (hsub _ hx)
    · intro c hc
      simp only [List.map_append, List.map_cons, List.map_nil, List.mem_append,
        List.mem_singleton] at hc
      rcases hc with hc | hc
      · exact List.mem_cons_of_mem _ (hsub _ hc)
      · subst hc
        exact List.mem_cons_self _ _
    · intro r hr
      rcases List.mem_append.mp hr with hr | hr
      · exact hcont r hr
      · simp only [List.mem_singleton] at hr
        subst hr
        exact hcond.1
  · exact h

theorem process_page_inv (target : Nat) (groups : List Group) :
    ∀ st : Yes24State, StateInv st → StateInv (process_page target st groups) := by
  induction groups with
  | nil => intro st h; simpa [process_page] using h
  | cons g rest ih =>
    intro st h
    rw [process_page]
    split
    · exact ih st h
    · dsimp only
      split
      · exact admit_group_inv st g h
      · exact ih _ (admit_group_inv st g h)

theorem scrape_reviews_loop_inv_y (target : Nat) (trace : List Yes24PageObs) :
    ∀ st : Yes24State, StateInv st →
      StateInv (scrape_reviews_loop target st trace).1 ∧
        ∀ x ∈ (scrape_reviews_loop target st trace).2.2, StateInv x := by
  induction trace with
  | nil =>
    intro st h
    rw [scrape_reviews_loop]
    split
    · exact ⟨h, fun x hx => by simp at hx⟩
    · exact ⟨h, fun x hx => by simp at hx⟩
  | cons ob rest ih =>
    intro st h
    cases ob with
    | none =>
      rw [scrape_reviews_loop.eq_2]
      split
      · exact ⟨h, fun x hx => by simp at hx⟩
      · exact ⟨h, fun x hx => by simp at hx⟩
    | some groups =>
      rw [scrape_reviews_loop.eq_3]
      dsimp only
      split
      · exact ⟨h, fun x hx => by simp at hx⟩
      · split
        · exact ⟨h, fun x hx => by simp at hx⟩
        · have hst1 : StateInv (process_page target st groups) :=
            process_page_inv target groups st h
          rcases hres : scrape_reviews_loop target (process_page target st groups) rest with
            ⟨fin, reason, hist⟩
          have hrec := ih _ hst1
          rw [hres] at hrec
          dsimp only
          dsimp only at hrec
          refine ⟨hrec.1, fun x hx => ?_⟩
          rcases List.mem_cons.mp hx with hx | hx
          · subst hx; exact hst1
          · exact hrec.2 x hx

theorem scrape_reviews_loop_target_y (target : Nat) (trace : List Yes24PageObs) :
    ∀ st : Yes24State,
      (scrape_reviews_loop target st trace).2.1 = .targetReached →
        target ≤ (scrape_reviews_loop target st trace).1.reviews_data.length := by
  induction trace with
  | nil =>
    intro st
    rw [scrape_reviews_loop]
    split
    · rename_i hc
      exact fun _ => hc
    · exact fun hh => by simp at hh
  | cons ob rest ih =>
    intro st
    cases ob with
    | none =>
      rw [scrape_reviews_loop.eq_2]
      split
      · rename_i hc
        exact fun _ => hc
      · exact fun hh => by simp at hh
    | some groups =>
      rw [scrape_reviews_loop.eq_3]
      dsimp only
      split
      · rename_i hc
        exact fun _ => hc
      · split
        · exact fun hh => by simp at hh
        · rcases hres : scrape_reviews_loop target (process_page target st groups) rest with
            ⟨fin, reason, hist⟩
          have hrec := ih (process_page target st groups)
          rw [hres] at hrec
          dsimp only
          dsimp only at hrec
          exact hrec

end Yes24Crawler

namespace AladinCrawler

theorem changedJudgment_iff (md5h : String → String) (n : Nat) (ids : Finset String)
    (cards : List (Option Card)) :
    changedJudgment md5h n ids cards = true ↔
      (n < cards.length ∨ ∃ s ∈ visible_card_signatures md5h cards, s ∉ ids) := by
  unfold changedJudgment
  simp only [Bool.or_eq_true, decide_eq_true_eq, Finset.card_pos]
  constructor
  · rintro (h | h)
    · exact Or.inl h
    · obtain ⟨s, hs⟩ := h
      rw [Finset.mem_sdiff] at hs
      exact Or.inr ⟨s, hs.1, hs.2⟩
  · rintro (h | ⟨s, hs1, hs2⟩)
    · exact Or.inl h
    · exact Or.inr ⟨s, Finset.mem_sdiff.mpr ⟨hs1, hs2⟩⟩

theorem click_more_and_wait_success (md5h : String → String) :
    ∀ (fuel : Nat) (cur : List (Option Card)) (att : List (Bool × List (Option Card))),
      click_more_and_wait md5h fuel cur att = true →
        ∃ pre post, changedJudgment md5h pre.length (visible_card_signatures md5h pre) post
          = true := by
  intro fuel
  induction fuel with
  | zero =>
    intro cur att h
    simp [click_more_and_wait] at h
  | succ n ih =>
    intro cur att h
    cases att with
    | nil => simp [click_more_and_wait] at h
    | cons a rest =>
      obtain ⟨hasMore, after⟩ := a
      rw [click_more_and_wait] at h
      by_cases hc : changedJudgment md5h cur.length (visible_card_signatures md5h cur) after
          = true
      · exact ⟨cur, after, hc⟩
      · rw [if_neg hc] at h
        by_cases hm : (!hasMore) = true
        · rw [if_pos hm] at h
          simp at h
        · rw [if_neg hm] at h
          exact ih after rest h

end AladinCrawler

theorem string_data_inj (s t : String) (h : s.data = t.data) : s = t := by
  cases s
  cases t
  exact congrArg String.mk h

theorem pipe_split (a₁ : List Char) :
    ∀ (a₂ b₁ b₂ : List Char), '|' ∉ a₁ → '|' ∉ a₂ →
      a₁ ++ '|' :: b₁ = a₂ ++ '|' :: b₂ → a₁ = a₂ ∧ b₁ = b₂ := by
  induction a₁ with
  | nil =>
    intro a₂ b₁ b₂ _ h₂ h
    cases a₂ with
    | nil =>
      simp only [List.nil_append, List.cons.injEq] at h
      exact ⟨rfl, h.2⟩
    | cons c t =>
      simp only [List.nil_append, List.cons_append, List.cons.injEq] at h
      exact absurd (h.1 ▸ List.mem_cons_self c t) h₂
  | cons c t ih =>
    intro a₂ b₁ b₂ h₁ h₂ h
    cases a₂ with
    | nil =>
      simp only [List.cons_append, List.nil_append, List.cons.injEq] at h
      exact absurd (h.1 ▸ List.mem_cons_self c t) h₁
    | cons c₂ t₂ =>
      simp only [List.cons_append, List.cons.injEq] at h
      have ht := ih t₂ b₁ b₂ (fun hm => h₁ (List.mem_cons_of_mem _ hm))
        (fun hm => h₂ (List.mem_cons_of_mem _ hm)) h.2
      exact ⟨by rw [h.1, ht.1], ht.2⟩

theorem pipeFree_not_mem (s : String) (h : pipeFree s) : '|' ∉ s.data :=
  fun hm => h '|' hm rfl

theorem fallback_sig_data (d r c : String) :
    (AladinCrawler.fallback_sig d r c).data = d.data ++ '|' :: (r.data ++ '|' :: c.data) := by
  simp [AladinCrawler.fallback_sig, String.data_append]

theorem make_row_id_key_data (s d r c : String) :
    (SeedReviews.make_row_id_key s d r c).data =
      s.data ++ '|' :: '|' :: (d.data ++ '|' :: '|' :: (r.data ++ '|' :: '|' :: c.data)) := by
  simp [SeedReviews.make_row_id_key, String.data_append]

theorem fallback_sig_inj (d₁ r₁ c₁ d₂ r₂ c₂ : String)
    (hd₁ : pipeFree d₁) (hr₁ : pipeFree r₁) (hd₂ : pipeFree d₂) (hr₂ : pipeFree r₂) :
    AladinCrawler.fallback_sig d₁ r₁ c₁ = AladinCrawler.fallback_sig d₂ r₂ c₂ ↔
      (d₁ = d₂ ∧ r₁ = r₂ ∧ c₁ = c₂) := by
  constructor
  · intro h
    have hdata := congrArg String.data h
    rw [fallback_sig_data, fallback_sig_data] at hdata
    have h1 := pipe_split d₁.data d₂.data _ _ (pipeFree_not_mem _ hd₁)
      (pipeFree_not_mem _ hd₂) hdata
    have h2 := pipe_split r₁.data r₂.data _ _ (pipeFree_not_mem _ hr₁)
      (pipeFree_not_mem _ hr₂) h1.2
    exact ⟨string_data_inj _ _ h1.1, string_data_inj _ _ h2.1, string_data_inj _ _ h2.2⟩
  · rintro ⟨rfl, rfl, rfl⟩
    rfl

theorem double_pipe_split (a₁ a₂ b₁ b₂ : List Char) (h₁ : '|' ∉ a₁) (h₂ : '|' ∉ a₂)
    (h : a₁ ++ '|' :: '|' :: b₁ = a₂ ++ '|' :: '|' :: b₂) : a₁ = a₂ ∧ b₁ = b₂ := by
  have hs := pipe_split a₁ a₂ ('|' :: b₁) ('|' :: b₂) h₁ h₂ h
  exact ⟨hs.1, by simpa using hs.2⟩

theorem make_row_id_key_inj (s₁ d₁ r₁ c₁ s₂ d₂ r₂ c₂ : String)
    (hs₁ : pipeFree s₁) (hd₁ : pipeFree d₁) (hr₁ : pipeFree r₁)
    (hs₂ : pipeFree s₂) (hd₂ : pipeFree d₂) (hr₂ : pipeFree r₂) :
    SeedReviews.make_row_id_key s₁ d₁ r₁ c₁ = SeedReviews.make_row_id_key s₂ d₂ r₂ c₂ ↔
      (s₁ = s₂ ∧ d₁ = d₂ ∧ r₁ = r₂ ∧ c₁ = c₂) := by
  constructor
  · intro h
    have hdata := congrArg String.data h
    rw [make_row_id_key_data, make_row_id_key_data] at hdata
    have h1 := double_pipe_split s₁.data s₂.data _ _ (pipeFree_not_mem _ hs₁)
      (pipeFree_not_mem _ hs₂) hdata
    have h2 := double_pipe_split d₁.data d₂.data _ _ (pipeFree_not_mem _ hd₁)
      (pipeFree_not_mem _ hd₂) h1.2
    have h3 := double_pipe_split r₁.data r₂.data _ _ (pipeFree_not_mem _ hr₁)
      (pipeFree_not_mem _ hr₂) h2.2
    exact ⟨string_data_inj _ _ h1.1, string_data_inj _ _ h2.1,
      string_data_inj _ _ h3.1, string_data_inj _ _ h3.2⟩
  · rintro ⟨rfl, rfl, rfl, rfl⟩
    rfl

namespace SeedReviews

theorem upsert_go_prefix (docs : List Doc) :
    ∀ (store : List Doc) (stats : UpsertStats),
      ∃ t, (upsert_go store docs stats).1 = store ++ t := by
  induction docs with
  | nil =>
    intro store stats
    exact ⟨[], by simp [upsert_go]⟩
  | cons d rest ih =>
    intro store stats
    rw [upsert_go]
    split
    · exact ih store _
    · obtain ⟨t, ht⟩ := ih (store ++ [d]) _
      exact ⟨[d] ++ t, by rw [ht, List.append_assoc]⟩

theorem upsert_go_fresh (docs : List Doc) :
    ∀ (store : List Doc) (stats : UpsertStats),
      (docs.map Doc.id).Nodup →
      (∀ d ∈ docs, ∀ s ∈ store, s.id ≠ d.id) →
      upsert_go store docs stats =
        (store ++ docs,
          { stats with inserted := stats.inserted + docs.length }) := by
  induction docs with
  | nil =>
    intro store stats _ _
    simp [upsert_go]
  | cons d rest ih =>
    intro store stats hnd hfresh
    rw [upsert_go]
    split
    · rename_i hany
      rw [List.any_eq_true] at hany
      obtain ⟨s, hs, hsid⟩ := hany
      rw [beq_iff_eq] at hsid
      exact absurd hsid (hfresh d (List.mem_cons_self d rest) s hs)
    · rw [List.map_cons, List.nodup_cons] at hnd
      have hrest := ih (store ++ [d]) { stats with inserted := stats.inserted + 1 }
        hnd.2 ?_
      · rw [hrest, List.append_assoc]
        simp only [List.singleton_append, List.length_cons]
        rw [Nat.add_assoc, Nat.add_comm 1 rest.length]
      · intro e he s hs
        rcases List.mem_append.mp hs with hs | hs
        · exact hfresh e (List.mem_cons_of_mem d he) s hs
        · simp only [List.mem_singleton] at hs
          subst hs
          intro hcontra
          exact hnd.1 (hcontra ▸ List.mem_map_of_mem Doc.id he)

theorem upsert_go_present (docs : List Doc) :
    ∀ (store : List Doc) (stats : UpsertStats),
      (∀ d ∈ docs, ∃ s ∈ store, s.id = d.id) →
      upsert_go store docs stats =
        (store, { stats with matched := stats.matched + docs.length }) := by
  induction docs with
  | nil =>
    intro store stats _
    simp [upsert_go]
  | cons d rest ih =>
    intro store stats hpres
    rw [upsert_go]
    split
    · have hrest := ih store { stats with matched := stats.matched + 1 }
        (fun e he => hpres e (List.mem_cons_of_mem d he))
      rw [hrest]
      simp only [List.length_cons]
      rw [Nat.add_assoc, Nat.add_comm 1 rest.length]
    · rename_i hany
      obtain ⟨s, hs, hsid⟩ := hpres d (List.mem_cons_self d rest)
      rw [List.any_eq_true] at hany
      exact absurd ⟨s, hs, beq_iff_eq.mpr hsid⟩ hany

end SeedReviews

namespace Yes24Crawler

theorem save_filter_eq (data : List Yes24Row) :
    ∀ seen : List String,
      (∀ r ∈ data, r.content ≠ "") →
      (data.map Yes24Row.content).Nodup →
      (∀ r ∈ data, r.content ∉ seen) →
      save_filter data seen = data := by
  induction data with
  | nil =>
    intro seen _ _ _
    simp [save_filter]
  | cons r rest ih =>
    intro seen hne hnd hseen
    rw [save_filter]
    rw [if_pos ⟨hne r (List.mem_cons_self r rest), hseen r (List.mem_cons_self r rest)⟩]
    rw [List.map_cons, List.nodup_cons] at hnd
    congr 1
    refine ih (r.content :: seen) (fun e he => hne e (List.mem_cons_of_mem r he)) hnd.2 ?_
    intro e he
    intro hmem
    rcases List.mem_cons.mp hmem with hmem | hmem
    · exact hnd.1 (hmem ▸ List.mem_map_of_mem Yes24Row.content he)
    · exact hseen e (List.mem_cons_of_mem r he) hmem

end Yes24Crawler

theorem nodup_map_dedup_length {α β : Type} [DecidableEq β] (f : α → β) (l : List α)
    (h : (l.map f).Nodup) : (l.map f).dedup.length = l.length := by
  rw [List.Nodup.dedup h, List.length_map]

/-- C1: in every collection run of each crawler (Aladin, Kyobo, Yes24), at
every point during and after the collection loop, no two records in the
collected list share the same RecordIdentity: identities are checked
against the running seen set before insertion, so the number of distinct
identities among the collected records always equals the length of the
collected list. -/
theorem C1_no_duplicate_identities (md5h : String → String)
    (t1 t2 : List AladinCrawler.AladinBatch) (extra : List (Option AladinCrawler.Card))
    (ktr : List KyoboCrawler.KyoboPage) (ytr : List Yes24Crawler.Yes24PageObs) :
    (∀ st ∈ (AladinCrawler.scrape_reviews_run md5h t1 t2 extra).1 ::
        (AladinCrawler.scrape_reviews_run md5h t1 t2 extra).2,
      (st.rows.map Prod.snd).Nodup ∧
        (st.rows.map Prod.snd).dedup.length = st.rows.length) ∧
    (∀ st ∈ (KyoboCrawler.scrape_reviews_run ktr).1 ::
        (KyoboCrawler.scrape_reviews_run ktr).2.2,
      (st.rows.map KyoboCrawler.rowKey).Nodup ∧
        (st.rows.map KyoboCrawler.rowKey).dedup.length = st.rows.length) ∧
    (∀ st ∈ (Yes24Crawler.scrape_reviews_run ytr).1 ::
        (Yes24Crawler.scrape_reviews_run ytr).2.2,
      (st.reviews_data.map Yes24Crawler.Yes24Row.content).Nodup ∧
        (st.reviews_data.map Yes24Crawler.Yes24Row.content).dedup.length =
          st.reviews_data.length) := by
  refine ⟨?_, ?_, ?_⟩
  · intro st hst
    have hinv := AladinCrawler.scrape_reviews_run_inv md5h t1 t2 extra
    have hstInv : AladinCrawler.StateInv st := by
      rcases List.mem_cons.mp hst with hst | hst
      · subst hst; exact hinv.1
      · exact hinv.2 st hst
    exact ⟨hstInv.1, nodup_map_dedup_length _ _ hstInv.1⟩
  · intro st hst
    have hinit : KyoboCrawler.StateInv KyoboCrawler.initState := by
      refine ⟨by simp [KyoboCrawler.initState], fun k hk => ?_⟩
      simp [KyoboCrawler.initState] at hk
    have hinv := KyoboCrawler.scrape_reviews_loop_inv KyoboCrawler.scrapeTarget
      KyoboCrawler.checkpoint_every_pages ktr KyoboCrawler.initState hinit
    have hstInv : KyoboCrawler.StateInv st := by
      rcases List.mem_cons.mp hst with hst | hst
      · subst hst; exact hinv.1
      · exact hinv.2 st hst
    exact ⟨hstInv.1, nodup_map_dedup_length _ _ hstInv.1⟩
  · intro st hst
    have hinit : Yes24Crawler.StateInv Yes24Crawler.initState := by
      refine ⟨by simp [Yes24Crawler.initState], fun c hc => ?_, fun r hr => ?_⟩
      · simp [Yes24Crawler.initState] at hc
      · simp [Yes24Crawler.initState] at hr
    have hinv := Yes24Crawler.scrape_reviews_loop_inv_y Yes24Crawler.target_count ytr
      Yes24Crawler.initState hinit
    have hstInv : Yes24Crawler.StateInv st := by
      rcases List.mem_cons.mp hst with hst | hst
      · subst hst; exact hinv.1
      · exact hinv.2 st hst
    exact ⟨hstInv.1, nodup_map_dedup_length _ _ hstInv.1⟩

/-- Witness for C1 on a concrete one-batch Aladin run. -/
theorem C1_no_duplicate_identities_witness :
    ((AladinCrawler.scrape_reviews_run id [([some Fixtures.cardNoId], true)] [] []).1.rows.map
        Prod.snd).Nodup ∧
      ((AladinCrawler.scrape_reviews_run id [([some Fixtures.cardNoId], true)] [] []).1.rows.map
        Prod.snd).dedup.length =
        (AladinCrawler.scrape_reviews_run id [([some Fixtures.cardNoId], true)] [] []).1.rows.length :=
  (C1_no_duplicate_identities id [([some Fixtures.cardNoId], true)] [] [] [] []).1 _
    (List.mem_cons_self _ _)

/-- C2 counterexample: KyoboCrawler retains a record whose normalized
content is empty: an element whose text contains a date but which has no
comment_text descendant is parsed to a row with empty content and admitted
by scrape_current_page, so the claim that every crawler excludes
empty-content candidates is false on this input. -/
theorem C2_empty_content_cex :
    ¬ ∀ r ∈ (KyoboCrawler.scrape_current_page 600 KyoboCrawler.initState
        [Fixtures.kyoboNoContentItem]).rows, r.content ≠ "" := by
  decide

/-- C2 amended: the empty-content exclusion holds for AladinCrawler and
Yes24Crawler (their admission bodies skip candidates with empty normalized
content), but not for KyoboCrawler, whose parser only requires a date and
admits rows with empty content. -/
theorem C2_empty_content_amended (md5h : String → String)
    (t1 t2 : List AladinCrawler.AladinBatch) (extra : List (Option AladinCrawler.Card))
    (ytr : List Yes24Crawler.Yes24PageObs) :
    (∀ p ∈ (AladinCrawler.scrape_reviews_run md5h t1 t2 extra).1.rows, p.1.content ≠ "") ∧
      ∀ r ∈ (Yes24Crawler.scrape_reviews_run ytr).1.reviews_data, r.content ≠ "" := by
  constructor
  · exact (AladinCrawler.scrape_reviews_run_inv md5h t1 t2 extra).1.2.2
  · have hinit : Yes24Crawler.StateInv Yes24Crawler.initState := by
      refine ⟨by simp [Yes24Crawler.initState], fun c hc => ?_, fun r hr => ?_⟩
      · simp [Yes24Crawler.initState] at hc
      · simp [Yes24Crawler.initState] at hr
    exact (Yes24Crawler.scrape_reviews_loop_inv_y Yes24Crawler.target_count ytr
      Yes24Crawler.initState hinit).1.2.2

/-- Witness for the amended C2 on a concrete one-batch Aladin run. -/
theorem C2_empty_content_amended_witness :
    ∀ p ∈ (AladinCrawler.scrape_reviews_run id [([some Fixtures.cardNoId], true)] [] []).1.rows,
      p.1.content ≠ "" :=
  (C2_empty_content_amended id [([some Fixtures.cardNoId], true)] [] [] []).1

/-- C3: in the Aladin collect loop the stagnation counter is incremented on
each batch that admits nothing and reset on progress, and the loop performs
at most the stagnation limit of consecutive no-progress batches before
stopping: the counter never exceeds the limit at any point of the run, and
when the loop stops with the stagnation outcome the counter equals the
limit exactly (the source constant STAGNATION_LIMIT being 10). -/
theorem C3_stagnation_bound (md5h : String → String) (limit : Nat) (myreview : Bool)
    (st : AladinCrawler.AladinState) (trace : List AladinCrawler.AladinBatch)
    (extra : List (Option AladinCrawler.Card)) (hl : 0 < limit) :
    AladinCrawler.STAGNATION_LIMIT = 10 ∧
      (∀ x ∈ (AladinCrawler.collect_loop md5h AladinCrawler.TARGET_COUNT limit myreview st
          trace extra).2.2, x.stagnation ≤ limit) ∧
      ((AladinCrawler.collect_loop md5h AladinCrawler.TARGET_COUNT limit myreview st
          trace extra).2.1 = .stagnated →
        (AladinCrawler.collect_loop md5h AladinCrawler.TARGET_COUNT limit myreview st
          trace extra).1.stagnation = limit) := by
  have h := AladinCrawler.collect_loop_stagnation md5h AladinCrawler.TARGET_COUNT limit
    myreview st trace extra hl
  exact ⟨rfl, h.1, h.2⟩

/-- Witness for C3: with limit 1 and one empty batch the loop stops with the
stagnation outcome and the counter equals the limit. -/
theorem C3_stagnation_bound_witness :
    0 < 1 ∧
      (AladinCrawler.collect_loop id AladinCrawler.TARGET_COUNT 1 false
        AladinCrawler.initState [([], true)] []).2.1 = .stagnated ∧
      (AladinCrawler.collect_loop id AladinCrawler.TARGET_COUNT 1 false
        AladinCrawler.initState [([], true)] []).1.stagnation = 1 :=
  ⟨by decide, by decide,
    (C3_stagnation_bound id 1 false AladinCrawler.initState [([], true)] []
      (by decide)).2.2 (by decide)⟩

/-- C4 counterexample: the change-detection judgment of click_more_and_wait
is not equivalent to "count increased or the signature set changed": on a
transition from two cards with ids 1 and 2 to the single card with id 1 the
signature set changes and the judgment is still false, because the code
only tests for newly appearing signatures (the set difference current minus
before). -/
theorem C4_change_detection_cex :
    ¬ (AladinCrawler.changedJudgment id
          ([some Fixtures.cardA, some Fixtures.cardB] : List (Option AladinCrawler.Card)).length
          (AladinCrawler.visible_card_signatures id [some Fixtures.cardA, some Fixtures.cardB])
          [some Fixtures.cardA] = true ↔
        (([some Fixtures.cardA, some Fixtures.cardB] : List (Option AladinCrawler.Card)).length <
            ([some Fixtures.cardA] : List (Option AladinCrawler.Card)).length ∨
          AladinCrawler.visible_card_signatures id [some Fixtures.cardA] ≠
            AladinCrawler.visible_card_signatures id
              [some Fixtures.cardA, some Fixtures.cardB])) := by
  decide

/-- C4 amended: an advance attempt is judged successful exactly when the
visible card count increases or at least one signature not present before
appears (the set difference current minus before is nonempty) — a pure
disappearance of signatures is not success; click_more_and_wait returns
success only when some attempt satisfied this structural judgment, with
attempts bounded by MORE_MAX_ATTEMPTS = 8. -/
theorem C4_change_detection_amended (md5h : String → String) (n : Nat)
    (ids : Finset String) (cards : List (Option AladinCrawler.Card)) (fuel : Nat)
    (cur : List (Option AladinCrawler.Card))
    (att : List (Bool × List (Option AladinCrawler.Card))) :
    (AladinCrawler.changedJudgment md5h n ids cards = true ↔
      (n < cards.length ∨
        ∃ s ∈ AladinCrawler.visible_card_signatures md5h cards, s ∉ ids)) ∧
    (AladinCrawler.click_more_and_wait md5h fuel cur att = true →
      ∃ pre post, AladinCrawler.changedJudgment md5h pre.length
        (AladinCrawler.visible_card_signatures md5h pre) post = true) ∧
    AladinCrawler.MORE_MAX_ATTEMPTS = 8 :=
  ⟨AladinCrawler.changedJudgment_iff md5h n ids cards,
    AladinCrawler.click_more_and_wait_success md5h fuel cur att, rfl⟩

/-- Witness for the amended C4: a concrete successful attempt (one new card
from an empty view) satisfies the judgment, and a one-attempt
click_more_and_wait run succeeding implies a successful judgment exists. -/
theorem C4_change_detection_amended_witness :
    AladinCrawler.changedJudgment id 0 ∅ [some Fixtures.cardA] = true ∧
      ∃ pre post, AladinCrawler.changedJudgment id pre.length
        (AladinCrawler.visible_card_signatures id pre) post = true :=
  ⟨(C4_change_detection_amended id 0 ∅ [some Fixtures.cardA] 1 []
      [(true, [some Fixtures.cardA])]).1.mpr (Or.inl (by decide)),
    (C4_change_detection_amended id 0 ∅ [some Fixtures.cardA] 1 []
      [(true, [some Fixtures.cardA])]).2.1 (by decide)⟩

/-- C5: whenever the collection loop of a crawler stops because the target
count was reached, the collected list has at least the target length; the
crawler targets are 550 for Aladin, 600 for Kyobo and 550 for Yes24. -/
theorem C5_target_reached (tgt : Nat) (md5h : String → String) (myreview : Bool)
    (ast : AladinCrawler.AladinState) (atr : List AladinCrawler.AladinBatch)
    (extra : List (Option AladinCrawler.Card)) (kst : KyoboCrawler.KyoboState)
    (ktr : List KyoboCrawler.KyoboPage) (yst : Yes24Crawler.Yes24State)
    (ytr : List Yes24Crawler.Yes24PageObs)
    (ha : (AladinCrawler.collect_loop md5h tgt AladinCrawler.STAGNATION_LIMIT myreview ast
        atr extra).2.1 = .targetReached)
    (hk : (KyoboCrawler.scrape_reviews_loop tgt KyoboCrawler.checkpoint_every_pages kst
        ktr).2.1 = .targetReached)
    (hy : (Yes24Crawler.scrape_reviews_loop tgt yst ytr).2.1 = .targetReached) :
    AladinCrawler.TARGET_COUNT = 550 ∧ KyoboCrawler.scrapeTarget = 600 ∧
      Yes24Crawler.target_count = 550 ∧
      tgt ≤ (AladinCrawler.collect_loop md5h tgt AladinCrawler.STAGNATION_LIMIT myreview ast
        atr extra).1.rows.length ∧
      tgt ≤ (KyoboCrawler.scrape_reviews_loop tgt KyoboCrawler.checkpoint_every_pages kst
        ktr).1.rows.length ∧
      tgt ≤ (Yes24Crawler.scrape_reviews_loop tgt yst ytr).1.reviews_data.length :=
  ⟨rfl, rfl, rfl,
    AladinCrawler.collect_loop_target md5h tgt AladinCrawler.STAGNATION_LIMIT myreview ast
      atr extra ha,
    KyoboCrawler.scrape_reviews_loop_target tgt KyoboCrawler.checkpoint_every_pages ktr kst hk,
    Yes24Crawler.scrape_reviews_loop_target_y tgt ytr yst hy⟩

/-- Witness for C5 with target 1: each crawler loop reaches the target on a
concrete one-page trace and the collected length is at least 1. -/
theorem C5_target_reached_witness :
    1 ≤ (AladinCrawler.collect_loop id 1 AladinCrawler.STAGNATION_LIMIT false
        AladinCrawler.initState [([some Fixtures.cardNoId], true)] []).1.rows.length ∧
      1 ≤ (KyoboCrawler.scrape_reviews_loop 1 KyoboCrawler.checkpoint_every_pages
        KyoboCrawler.initState [([Fixtures.kyoboGoodItem], true)]).1.rows.length ∧
      1 ≤ (Yes24Crawler.scrape_reviews_loop 1 Yes24Crawler.initState
        [some [Fixtures.yesGroupGood]]).1.reviews_data.length := by
  have h := C5_target_reached 1 id false AladinCrawler.initState
    [([some Fixtures.cardNoId], true)] [] KyoboCrawler.initState
    [([Fixtures.kyoboGoodItem], true)] Yes24Crawler.initState [some [Fixtures.yesGroupGood]]
    (by decide) (by decide) (by decide)
  exact ⟨h.2.2.2.1, h.2.2.2.2⟩

/-- C6 counterexample: in AladinCrawler.scrape_reviews an unrecoverable
exception escaping the collection logic propagates without any checkpoint
flush and without quitting the driver — there is no handler or finally
around the collection phase — so the claim that every crawler flushes,
re-raises and tears the session down on every exit path is false. -/
theorem C6_teardown_cex :
    (ExitPaths.aladinScrapeProg.run ExitPaths.failsCollect).2 = .exn ∧
      ExitPaths.CAct.quitDriver ∉ (ExitPaths.aladinScrapeProg.run ExitPaths.failsCollect).1 ∧
      ExitPaths.CAct.checkpoint ∉ (ExitPaths.aladinScrapeProg.run ExitPaths.failsCollect).1 := by
  decide

/-- C6 amended: only KyoboCrawler.scrape_reviews implements the full fatal
path (checkpoint flush, re-raise, and driver.quit plus clearing the driver
in a finally, on success and failure alike).  AladinCrawler quits the
driver only on the exception-free path, never clears it, and an escaping
exception propagates with no flush and no quit.  Yes24Crawler returns early
without re-raising or quitting when the product page fails to load, loses
the driver if an exception escapes its parsing logic, and quits and clears
only on normal completion. -/
theorem C6_teardown_amended :
    ((ExitPaths.kyoboScrapeProg.run ExitPaths.failsCollect).2 = .exn ∧
      ExitPaths.CAct.checkpoint ∈ (ExitPaths.kyoboScrapeProg.run ExitPaths.failsCollect).1 ∧
      ExitPaths.CAct.quitDriver ∈ (ExitPaths.kyoboScrapeProg.run ExitPaths.failsCollect).1 ∧
      ExitPaths.CAct.clearDriver ∈ (ExitPaths.kyoboScrapeProg.run ExitPaths.failsCollect).1) ∧
    ((ExitPaths.kyoboScrapeProg.run ExitPaths.failsNone).2 = .ok ∧
      ExitPaths.CAct.finalSave ∈ (ExitPaths.kyoboScrapeProg.run ExitPaths.failsNone).1 ∧
      ExitPaths.CAct.quitDriver ∈ (ExitPaths.kyoboScrapeProg.run ExitPaths.failsNone).1 ∧
      ExitPaths.CAct.clearDriver ∈ (ExitPaths.kyoboScrapeProg.run ExitPaths.failsNone).1) ∧
    ((ExitPaths.aladinScrapeProg.run ExitPaths.failsCollect).2 = .exn ∧
      ExitPaths.CAct.quitDriver ∉ (ExitPaths.aladinScrapeProg.run ExitPaths.failsCollect).1 ∧
      ExitPaths.CAct.checkpoint ∉ (ExitPaths.aladinScrapeProg.run ExitPaths.failsCollect).1) ∧
    ((ExitPaths.aladinScrapeProg.run ExitPaths.failsNone).2 = .ok ∧
      ExitPaths.CAct.quitDriver ∈ (ExitPaths.aladinScrapeProg.run ExitPaths.failsNone).1 ∧
      ExitPaths.CAct.clearDriver ∉ (ExitPaths.aladinScrapeProg.run ExitPaths.failsNone).1) ∧
    ((ExitPaths.yes24ScrapeProg.run ExitPaths.failsNavigate).2 = .early ∧
      ExitPaths.CAct.quitDriver ∉ (ExitPaths.yes24ScrapeProg.run ExitPaths.failsNavigate).1 ∧
      ExitPaths.CAct.clearDriver ∉ (ExitPaths.yes24ScrapeProg.run ExitPaths.failsNavigate).1) ∧
    ((ExitPaths.yes24ScrapeProg.run ExitPaths.failsCollect).2 = .exn ∧
      ExitPaths.CAct.quitDriver ∉ (ExitPaths.yes24ScrapeProg.run ExitPaths.failsCollect).1) ∧
    ((ExitPaths.yes24ScrapeProg.run ExitPaths.failsNone).2 = .ok ∧
      ExitPaths.CAct.quitDriver ∈ (ExitPaths.yes24ScrapeProg.run ExitPaths.failsNone).1 ∧
      ExitPaths.CAct.clearDriver ∈ (ExitPaths.yes24ScrapeProg.run ExitPaths.failsNone).1) := by
  decide

/-- C7 counterexample: for a candidate without a natural id the dedup
identity of the Aladin crawler hashes the string date|rating|content — on
this concrete record the hashed preimage provably contains no occurrence of
the source name, while the persisted document key built by make_row_id does
embed the site — so the claim that the dedup identity is computed over
exactly the tuple (source, date, rating, content) is false. -/
theorem C7_identity_tuple_cex :
    (AladinCrawler.parse_one_card id Fixtures.cardNoId).2 = "2024-01-01|5|nice" ∧
      ¬ ("aladin".data <:+: ("2024-01-01|5|nice" : String).data) ∧
      ("aladin".data <:+: (SeedReviews.make_row_id_key "aladin" "2024-01-01" "5" "nice").data) := by
  decide

/-- C7 amended: for a candidate without a natural id the dedup identity is
the deterministic md5 digest (128 bits) of the normalized tuple
(date, rating, content) joined with single pipes — the source is not part
of the hashed tuple — while the persisted document key is the deterministic
sha256 digest (256 bits) of exactly (site, date, rating, content) joined
with double pipes; both preimage encodings are injective on pipe-free
fields. -/
theorem C7_identity_tuple_amended (sha256h md5h : String → String)
    (s₁ d₁ r₁ c₁ s₂ d₂ r₂ c₂ : String)
    (hs₁ : pipeFree s₁) (hd₁ : pipeFree d₁) (hr₁ : pipeFree r₁)
    (hs₂ : pipeFree s₂) (hd₂ : pipeFree d₂) (hr₂ : pipeFree r₂) :
    (SeedReviews.make_row_id_key s₁ d₁ r₁ c₁ = SeedReviews.make_row_id_key s₂ d₂ r₂ c₂ ↔
      (s₁ = s₂ ∧ d₁ = d₂ ∧ r₁ = r₂ ∧ c₁ = c₂)) ∧
    (AladinCrawler.fallback_sig d₁ r₁ c₁ = AladinCrawler.fallback_sig d₂ r₂ c₂ ↔
      (d₁ = d₂ ∧ r₁ = r₂ ∧ c₁ = c₂)) ∧
    (∀ card : AladinCrawler.Card, card.paperId = "" →
      (AladinCrawler.parse_one_card md5h card).2 =
        md5h (AladinCrawler.fallback_sig (AladinCrawler.normField card.date) card.rating
          (AladinCrawler.normField card.content))) ∧
    (SeedReviews.make_row_id sha256h s₁ d₁ r₁ c₁ =
      sha256h (SeedReviews.make_row_id_key s₁ d₁ r₁ c₁)) ∧
    128 ≤ md5DigestBits ∧ 128 ≤ sha256DigestBits := by
  refine ⟨make_row_id_key_inj s₁ d₁ r₁ c₁ s₂ d₂ r₂ c₂ hs₁ hd₁ hr₁ hs₂ hd₂ hr₂,
    fallback_sig_inj d₁ r₁ c₁ d₂ r₂ c₂ hd₁ hr₁ hd₂ hr₂, ?_, rfl, by decide, by decide⟩
  intro card hpid
  simp [AladinCrawler.parse_one_card, hpid]

/-- Witness for the amended C7 at concrete pipe-free fields. -/
theorem C7_identity_tuple_amended_witness :
    (SeedReviews.make_row_id_key "aladin" "2024-01-01" "5" "nice" =
        SeedReviews.make_row_id_key "aladin" "2024-01-01" "5" "nice" ↔
      ("aladin" : String) = "aladin" ∧ ("2024-01-01" : String) = "2024-01-01" ∧
        ("5" : String) = "5" ∧ ("nice" : String) = "nice") ∧
      (SeedReviews.make_row_id id "aladin" "2024-01-01" "5" "nice" =
        "aladin||2024-01-01||5||nice") :=
  ⟨(C7_identity_tuple_amended id id "aladin" "2024-01-01" "5" "nice"
      "aladin" "2024-01-01" "5" "nice" (by unfold pipeFree; decide)
      (by unfold pipeFree; decide) (by unfold pipeFree; decide)
      (by unfold pipeFree; decide) (by unfold pipeFree; decide)
      (by unfold pipeFree; decide)).1,
    by decide⟩

/-- C8 counterexample: the CSV written by KyoboCrawler.save_to_database does
not start with the header rating,date,content: pandas renders the dataclass
field order, so the first line is date,content,rating. -/
theorem C8_csv_header_cex :
    (KyoboCrawler.save_to_database [Fixtures.kyoboRow1]).lines.head? ≠
        some "rating,date,content" ∧
      (KyoboCrawler.save_to_database [Fixtures.kyoboRow1]).lines.head? =
        some "date,content,rating" := by
  decide

/-- C8 amended: every crawler writes a delimited utf-8-sig file with one
CSV-quoted row per retained record in collection order; AladinCrawler and
Yes24Crawler write the fixed header rating,date,content, while KyoboCrawler
writes the dataclass order date,content,rating (Yes24Crawler additionally
re-filters empty or duplicate contents at save time, which keeps every
record under the collection invariant). -/
theorem C8_csv_output_amended (aRows : List (AladinCrawler.ReviewRow × String))
    (kRows : List KyoboCrawler.KyoboRow) (yData : List Yes24Crawler.Yes24Row)
    (hk : kRows ≠ [])
    (hy1 : ∀ r ∈ yData, r.content ≠ "")
    (hy2 : (yData.map Yes24Crawler.Yes24Row.content).Nodup) (hy3 : yData ≠ []) :
    ((AladinCrawler.save_to_database aRows).encoding = "utf-8-sig" ∧
      (AladinCrawler.save_to_database aRows).lines.head? = some "rating,date,content" ∧
      (AladinCrawler.save_to_database aRows).records =
        aRows.map (fun p => [p.1.rating, p.1.date, p.1.content])) ∧
    ((KyoboCrawler.save_to_database kRows).encoding = "utf-8-sig" ∧
      (KyoboCrawler.save_to_database kRows).lines.head? = some "date,content,rating" ∧
      (KyoboCrawler.save_to_database kRows).records =
        kRows.map (fun r => [r.date, r.content, KyoboCrawler.ratingRepr r.rating])) ∧
    Yes24Crawler.save_to_database yData =
      some ⟨"utf-8-sig", ["rating", "date", "content"],
        yData.map (fun r => [r.rating, r.date, r.content])⟩ := by
  refine ⟨⟨rfl, ?_, rfl⟩, ⟨rfl, ?_, rfl⟩, ?_⟩
  · simp only [AladinCrawler.save_to_database, AladinCrawler.CsvFile.lines, List.head?_cons]
    decide
  · have hne : kRows.isEmpty = false := by
      cases kRows with
      | nil => exact absurd rfl hk
      | cons a t => rfl
    simp only [KyoboCrawler.save_to_database, hne, Bool.false_eq_true, if_false,
      AladinCrawler.CsvFile.lines, List.head?_cons]
    decide
  · have hne : yData.isEmpty = false := by
      cases yData with
      | nil => exact absurd rfl hy3
      | cons a t => rfl
    simp only [Yes24Crawler.save_to_database, hne, Bool.false_eq_true, if_false]
    rw [Yes24Crawler.save_filter_eq yData [] hy1 hy2 (fun r _ => List.not_mem_nil _)]

/-- Witness for the amended C8 at concrete one-record row lists. -/
theorem C8_csv_output_amended_witness :
    (AladinCrawler.save_to_database []).lines.head? = some "rating,date,content" ∧
      (KyoboCrawler.save_to_database [Fixtures.kyoboRow1]).lines.head? =
        some "date,content,rating" ∧
      Yes24Crawler.save_to_database [⟨"5", "2024-01-01", "fine"⟩] =
        some ⟨"utf-8-sig", ["rating", "date", "content"],
          [⟨"5", "2024-01-01", "fine"⟩].map
            (fun r : Yes24Crawler.Yes24Row => [r.rating, r.date, r.content])⟩ := by
  have h := C8_csv_output_amended [] [Fixtures.kyoboRow1] [⟨"5", "2024-01-01", "fine"⟩]
    (by decide) (by decide) (by decide) (by decide)
  exact ⟨h.1.2.1, h.2.1.2.1, h.2.2⟩

/-- C9: applying the insert-if-absent upsert to pairwise-distinct documents
none of which is in the store inserts all of them (inserted = N,
matched = 0) and appends them to the store; applying it a second time with
the same documents inserts nothing and matches all of them (inserted = 0,
matched = N) while leaving the store unchanged; and in general the upsert
never overwrites an existing document (the store is only ever extended). -/
theorem C9_upsert_insert_only (store docs store2 docs2 : List SeedReviews.Doc)
    (hnd : (docs.map SeedReviews.Doc.id).Nodup)
    (hfresh : ∀ d ∈ docs, ∀ s ∈ store, s.id ≠ d.id) :
    (SeedReviews.upsert_many store docs).1 = store ++ docs ∧
      (SeedReviews.upsert_many store docs).2.inserted = docs.length ∧
      (SeedReviews.upsert_many store docs).2.matched = 0 ∧
      (SeedReviews.upsert_many (SeedReviews.upsert_many store docs).1 docs).1 =
        store ++ docs ∧
      (SeedReviews.upsert_many (SeedReviews.upsert_many store docs).1 docs).2.inserted = 0 ∧
      (SeedReviews.upsert_many (SeedReviews.upsert_many store docs).1 docs).2.matched =
        docs.length ∧
      ∃ t, (SeedReviews.upsert_many store2 docs2).1 = store2 ++ t := by
  have h1 := SeedReviews.upsert_go_fresh docs store ⟨0, 0, 0⟩ hnd hfresh
  have hpres : ∀ d ∈ docs, ∃ s ∈ store ++ docs, s.id = d.id :=
    fun d hd => ⟨d, List.mem_append_right store hd, rfl⟩
  have h2 := SeedReviews.upsert_go_present docs (store ++ docs) ⟨0, 0, 0⟩ hpres
  unfold SeedReviews.upsert_many
  rw [h1]
  dsimp only
  rw [h2]
  exact ⟨rfl, Nat.zero_add _, rfl, rfl, rfl, Nat.zero_add _,
    SeedReviews.upsert_go_prefix docs2 store2 ⟨0, 0, 0⟩⟩

/-- Witness for C9 on two concrete fresh documents. -/
theorem C9_upsert_insert_only_witness :
    (SeedReviews.upsert_many [] [Fixtures.docA, Fixtures.docB]).2.inserted = 2 ∧
      (SeedReviews.upsert_many
          (SeedReviews.upsert_many [] [Fixtures.docA, Fixtures.docB]).1
          [Fixtures.docA, Fixtures.docB]).2.inserted = 0 ∧
      (SeedReviews.upsert_many
          (SeedReviews.upsert_many [] [Fixtures.docA, Fixtures.docB]).1
          [Fixtures.docA, Fixtures.docB]).2.matched = 2 := by
  have h := C9_upsert_insert_only [] [Fixtures.docA, Fixtures.docB] [] []
    (by decide) (by decide)
  exact ⟨h.2.1, h.2.2.2.2.1, h.2.2.2.2.2.1⟩

/-- C10: calling Yes24Crawler.save_to_database with an empty collected list
returns immediately without producing any output file — not even a
header-only one — leaving the file system untouched (modelled by the
absence of a CSV artifact). -/
theorem C10_empty_save_no_file : Yes24Crawler.save_to_database [] = none := by
  decide
